import Mathlib

/-!
Shallow embedding of the ShipStation order-automation scripts
(`automator_new.py` as the canonical PITB-aware variant, with the
`mark_edge_case` variant of `automator_old1.py` and the order filter of
`main.py` also modelled), together with theorems settling the frozen
claims about the classifier, packaging estimator, rate selector and
batch driver.

Numeric conventions: Python floats carrying weights and rate costs are
modelled as rationals (`ℚ`); the program only adds, multiplies and
compares them, and every concrete value used here is exactly
representable, so the order structure is faithful.
-/

namespace ShipStation

/-- Weight dictionary of an order (`order["weight"]`): only the `value`
key matters to the scripts; the key may be missing. -/
structure WeightInfo where
  value : Option ℚ
  deriving DecidableEq, Repr

/-- Dimensions dictionary of an order (`order["dimensions"]`). -/
structure Dims where
  length : Int
  width : Int
  height : Int
  deriving DecidableEq, Repr

/-- One line item: `sku` and `quantity` keys may be missing. -/
structure Item where
  sku : Option String
  quantity : Option Int
  deriving DecidableEq, Repr

/-- An order as the scripts read it: the JSON fields the decision logic
touches, with `Option` for keys that may be absent or null. The
`mergedOrSplit` and `customField2` fields live under `advancedOptions`
in the JSON. -/
structure Order where
  orderId : Int
  orderNumber : String
  items : List Item
  tagIds : List Int
  mergedOrSplit : Bool
  customField2 : Option String
  weight : Option WeightInfo
  dimensions : Option Dims
  carrierCode : Option String
  serviceCode : Option String
  shipToCountry : Option String
  shipToPostalCode : Option String
  shipToState : Option String
  residential : Bool
  deriving DecidableEq, Repr

/-- Tag constants from `automator_new.py`. -/
def EDGE_CASE_TAG : Int := 145681

/-- Processed-order tag (145844). -/
def PROCESSED_TAG : Int := 145844

/-- PITB priority tag (117278). -/
def PITB_TAG : Int := 117278

/-- Expedited batch tag (126500) consulted by the rate selector. -/
def EXPEDITED_TAG : Int := 126500

/-- Excluded tags: Wayfair (151644), Public Goods (147485). -/
def EXCLUDED_TAG_IDS : List Int := [151644, 147485]

/-- Operator-curated new-SKU set; starts (and in the source stays) empty. -/
def NEW_PRODUCT_SKUS : List String := []

/-- Python `get_skus`: SKUs of the line items, skipping items whose sku is
missing, empty (falsy) or the `"total-discount"` sentinel. -/
def get_skus (o : Order) : List String :=
  o.items.filterMap (fun it =>
    match it.sku with
    | some s => if s ≠ "" ∧ s ≠ "total-discount" then some s else none
    | none => none)

/-- Python `has_edge_tag`. -/
def has_edge_tag (o : Order) : Bool := decide (EDGE_CASE_TAG ∈ o.tagIds)

/-- Python `has_processed_tag`. -/
def has_processed_tag (o : Order) : Bool := decide (PROCESSED_TAG ∈ o.tagIds)

/-- Python `is_pitb`. -/
def is_pitb (o : Order) : Bool := decide (PITB_TAG ∈ o.tagIds)

/-- Python `is_merged`: the `mergedOrSplit` advanced option (default false). -/
def is_merged (o : Order) : Bool := o.mergedOrSplit

/-- Python `has_no_location`: `customField2 in [None, '', 'No Location']`. -/
def has_no_location (o : Order) : Bool :=
  decide (o.customField2 = none ∨ o.customField2 = some "" ∨
    o.customField2 = some "No Location")

/-- Value of `order.get('weight', {}).get('value', 0.0)`. -/
def weight_value_or_zero (o : Order) : ℚ :=
  match o.weight with
  | none => 0
  | some w => w.value.getD 0

/-- Python `has_no_shipping_settings`. -/
def has_no_shipping_settings (o : Order) : Bool :=
  decide (weight_value_or_zero o = 0 ∨ o.carrierCode = none ∨ o.dimensions = none)

/-- Python `has_new_item`. -/
def has_new_item (o : Order) : Bool :=
  (get_skus o).any (fun s => NEW_PRODUCT_SKUS.contains s)

/-- PITB branch helper: `weight_val = (order.get('weight') or {}).get('value')`
(note no 0.0 default here, unlike `has_no_shipping_settings`). -/
def pitb_weight_value (o : Order) : Option ℚ := o.weight.bind (fun w => w.value)

/-- PITB branch: `missing_crit = dims is None or weight is None or
weight_val in (None, 0, 0.0)`. The middle disjunct is dead code since
`weight = order.get('weight') or {}` is never `None`. -/
def pitb_missing_critical (o : Order) : Bool :=
  decide (o.dimensions = none ∨ pitb_weight_value o = none ∨
    pitb_weight_value o = some 0)

/-- Reasons passed to `mark_edge_case` in `automator_new.py`. -/
inductive Reason where
  | pitb_missing_critical_shipping_data
  | already_tagged
  | merged
  | no_location
  | missing_shipping
  | new_sku
  deriving DecidableEq, Repr

/-- Classification outcome of the spec contract
`classify(order) -> {ROUTINE, EDGE_CASE(reason), ALREADY_PROCESSED}`,
read off from the branch structure of `is_edge_case` in
`automator_new.py`. -/
inductive Classification where
  | ROUTINE
  | ALREADY_PROCESSED
  | EDGE_CASE (reason : Reason)
  deriving DecidableEq, Repr

/-- Pure classification view of `is_edge_case` in `automator_new.py`:
each branch of the Python function mapped to the classification it
reports (edge branches name their `mark_edge_case` reason, the
`has_processed_tag` branch is `ALREADY_PROCESSED`, the PITB-with-data
branch and the final fall-through are `ROUTINE`). -/
def classify (o : Order) : Classification :=
  if is_pitb o then
    if pitb_missing_critical o then
      .EDGE_CASE .pitb_missing_critical_shipping_data
    else .ROUTINE
  else if has_edge_tag o then .EDGE_CASE .already_tagged
  else if has_processed_tag o then .ALREADY_PROCESSED
  else if is_merged o then .EDGE_CASE .merged
  else if has_no_location o then .EDGE_CASE .no_location
  else if has_no_shipping_settings o then .EDGE_CASE .missing_shipping
  else if has_new_item o then .EDGE_CASE .new_sku
  else .ROUTINE

/-- Tag-add call issued to the Tag Store: (orderId, tagId). -/
abbrev TagCall := Int × Int

/-- Python `mark_edge_case` of `automator_new.py`: unconditionally issues
one `assign_tag(order['orderId'], EDGE_CASE_TAG)` call. -/
def mark_edge_case_calls (o : Order) : List TagCall :=
  [(o.orderId, EDGE_CASE_TAG)]

/-- Python `mark_edge_case` of `automator_old1.py`: issues the tag-add
only when the EDGE_CASE tag is not already in `order['tagIds']`. -/
def mark_edge_case_old1_calls (o : Order) : List TagCall :=
  if EDGE_CASE_TAG ∈ o.tagIds then [] else [(o.orderId, EDGE_CASE_TAG)]

/-- Effectful run of `is_edge_case` in `automator_new.py`: its boolean
return value, the tag-add calls it issues, and the local order state
after the call (the function reads the order but never writes it). -/
def is_edge_case_run (o : Order) : Bool × List TagCall × Order :=
  if is_pitb o then
    if pitb_missing_critical o then (true, mark_edge_case_calls o, o)
    else (false, [], o)
  else if has_edge_tag o then (true, mark_edge_case_calls o, o)
  else if has_processed_tag o then (false, [], o)
  else if is_merged o then (true, mark_edge_case_calls o, o)
  else if has_no_location o then (true, mark_edge_case_calls o, o)
  else if has_no_shipping_settings o then (true, mark_edge_case_calls o, o)
  else if has_new_item o then (true, mark_edge_case_calls o, o)
  else (false, [], o)

/-! Packaging estimator (`assign_weight_and_dimensions` in
`automator_new.py`). -/

/-- Python `str.upper()`, character-wise (the SKUs and country codes the
scripts upper-case are ASCII, where `Char.toUpper` agrees with Python). -/
def str_upper (s : String) : String := ⟨s.data.map Char.toUpper⟩

/-- Python `str.lower()`, character-wise. -/
def str_lower (s : String) : String := ⟨s.data.map Char.toLower⟩

/-- Python `s.startswith(p)`. -/
def str_startswith (s p : String) : Bool := p.data.isPrefixOf s.data

/-- Effective SKU of an item in the weight loop:
`(it.get("sku") or "").upper()`. -/
def itemSku (it : Item) : String := str_upper (it.sku.getD "")

/-- Effective quantity of an item: `int(it.get("quantity") or 1)` — a
missing or zero (falsy) quantity becomes 1. -/
def itemQty (it : Item) : Int :=
  match it.quantity with
  | none => 1
  | some q => if q = 0 then 1 else q

/-- Fixed SKU→ounces table `SKU_WEIGHT_MAP`. -/
def SKU_WEIGHT_MAP : List (String × ℚ) :=
  [("4IN-PLANT", 16), ("6IN-PLANT", 40), ("8IN-PLANT", 64), ("BUNDLE", 56)]

/-- Default per-unit weight `DEFAULT_WEIGHT_OZ` (16 oz). -/
def DEFAULT_WEIGHT_OZ : ℚ := 16

/-- Per-unit weight lookup `SKU_WEIGHT_MAP.get(sku, DEFAULT_WEIGHT_OZ)`. -/
def skuWeightLookup (s : String) : ℚ :=
  (SKU_WEIGHT_MAP.lookup s).getD DEFAULT_WEIGHT_OZ

/-- One entry of the box catalog. -/
structure BoxSize where
  length : Int
  width : Int
  height : Int
  max_items : Int
  deriving DecidableEq, Repr, Inhabited

/-- Box catalog `BOX_SIZES`, smallest first. -/
def BOX_SIZES : List BoxSize :=
  [⟨8, 8, 8, 1⟩, ⟨10, 8, 6, 2⟩, ⟨12, 10, 8, 4⟩, ⟨16, 12, 10, 8⟩,
   ⟨20, 14, 12, 16⟩]

/-- Accumulator step of the item loop in `assign_weight_and_dimensions`:
state is (total_weight, total_items, large_item_present). -/
def awdStep (st : ℚ × Int × Bool) (it : Item) : ℚ × Int × Bool :=
  let sku := itemSku it
  let qty := itemQty it
  (st.1 + skuWeightLookup sku * (qty : ℚ), st.2.1 + qty,
   st.2.2 || (str_startswith sku "8IN" || sku == "BUNDLE"))

/-- Large-item test of the loop, as a list predicate. -/
def large_item_present (items : List Item) : Bool :=
  items.any (fun it =>
    str_startswith (itemSku it) "8IN" || itemSku it == "BUNDLE")

/-- Summed weight of the loop, as a list sum. -/
def total_weight (items : List Item) : ℚ :=
  (items.map (fun it => skuWeightLookup (itemSku it) * (itemQty it : ℚ))).sum

/-- Summed quantity of the loop, as a list sum. -/
def total_items (items : List Item) : Int := (items.map itemQty).sum

/-- Box chosen by `assign_weight_and_dimensions`: `BOX_SIZES[-2]` when a
large item is present, otherwise the first catalog entry whose
`max_items` bound admits the total item count, defaulting to
`BOX_SIZES[-1]`. -/
def chosen_box (items : List Item) : BoxSize :=
  let st := items.foldl awdStep (0, 0, false)
  if st.2.2 then (BOX_SIZES.getD (BOX_SIZES.length - 2) default)
  else
    match BOX_SIZES.find? (fun b => decide (st.2.1 ≤ b.max_items)) with
    | some b => b
    | none => BOX_SIZES.getD (BOX_SIZES.length - 1) default

/-- Python `assign_weight_and_dimensions`: runs the item loop and writes
the `weight` and `dimensions` dictionaries onto the order. -/
def assign_weight_and_dimensions (o : Order) : Order :=
  let st := o.items.foldl awdStep (0, 0, false)
  let box := chosen_box o.items
  { o with
    weight := some ⟨some st.1⟩,
    dimensions := some ⟨box.length, box.width, box.height⟩ }

/-! Rate selector (`set_shipping_service` in `automator_new.py`). -/

/-- One rate quote returned by `/shipments/getrates`. -/
structure Rate where
  carrierCode : Option String
  serviceCode : Option String
  serviceName : Option String
  shipmentCost : Option ℚ
  deriving DecidableEq, Repr, Inhabited

/-- Sort/minimum key `r.get("shipmentCost", float("inf"))`: a missing
cost sorts as plus infinity (`⊤`). -/
def costKey (r : Rate) : WithTop ℚ :=
  match r.shipmentCost with
  | some c => (c : WithTop ℚ)
  | none => ⊤

/-- Cost comparison used by the sort. -/
def rateLE (a b : Rate) : Prop := costKey a ≤ costKey b

instance : DecidableRel rateLE := fun a b =>
  inferInstanceAs (Decidable (costKey a ≤ costKey b))

instance : IsTotal Rate rateLE := ⟨fun a b => le_total (costKey a) (costKey b)⟩

instance : IsTrans Rate rateLE := ⟨fun _ _ _ => le_trans⟩

/-- Python `all_rates.sort(key=lambda r: r.get("shipmentCost", float("inf")))`:
a stable ascending sort by cost, modelled by insertion sort (the unique
stable sort for this total preorder). -/
def sortRates (rs : List Rate) : List Rate := List.insertionSort rateLE rs

/-- Python substring test `needle in hay`. -/
def strContains (hay needle : String) : Bool :=
  (List.range (hay.length + 1)).any
    (fun i => needle.toList.isPrefixOf (hay.toList.drop i))

/-- Lower-cased field access `(r.get(...) or "").lower()`. -/
def lowerOpt (s : Option String) : String := str_lower (s.getD "")

/-- Keyword test of `_choose_by_keywords`:
`any(k in sc or k in sn or k in cc for k in keywords)`. -/
def rateMatchesKeywords (kws : List String) (r : Rate) : Bool :=
  kws.any (fun k =>
    strContains (lowerOpt r.serviceCode) k ||
    strContains (lowerOpt r.serviceName) k ||
    strContains (lowerOpt r.carrierCode) k)

/-- Python `min(cands, key=...)`: first element of least cost. -/
def minByCost (rs : List Rate) : Option Rate :=
  match rs with
  | [] => none
  | r :: rest =>
    some (rest.foldl (fun best x => if costKey x < costKey best then x else best) r)

/-- Python `_choose_by_keywords(rates_list, keywords)`. -/
def choose_by_keywords (rs : List Rate) (kws : List String) : Option Rate :=
  match rs with
  | [] => none
  | _ => minByCost (rs.filter (rateMatchesKeywords kws))

/-- Expedited-preference keyword set. -/
def EXPEDITED_KEYWORDS : List String :=
  ["2day", "2-day", "two day", "express", "expedited", "priority_overnight",
   "ups_2nd_day", "ups second", "fedex_2day", "fedex 2 day"]

/-- Domestic light-parcel keyword set. -/
def LIGHT_KEYWORDS : List String :=
  ["first_class", "usps_first", "stamps_first_class", "ground_advantage",
   "ground advantage"]

/-- Domestic ground/priority keyword set. -/
def GROUND_KEYWORDS : List String :=
  ["usps_priority", "priority_mail", "priority mail", "ups_ground",
   "surepost", "fedex_ground", "home_delivery"]

/-- International keyword set. -/
def INTL_KEYWORDS : List String :=
  ["ups_worldwide", "worldwide saver", "worldwide expedited",
   "priority_mail_international", "usps_priority_mail_international",
   "fedex_international", "international economy", "international priority"]

/-- Destination country string of the base shipment after defaulting:
`(base_shipment.get("toCountry") or "US").upper()` with the descriptor
built from `order.get("shipTo", {}).get("country", "US")`. -/
def to_country_upper (o : Order) : String :=
  str_upper
    (match o.shipToCountry with
     | none => "US"
     | some c => if c = "" then "US" else c)

/-- Python `is_domestic`: membership of the upper-cased country in
`{"US", "USA"}`. -/
def is_domestic (o : Order) : Bool :=
  decide (to_country_upper o = "US" ∨ to_country_upper o = "USA")

/-- Weight in ounces read back from the base shipment:
`float((base_shipment.get("weight") or {}).get("value") or 0.0)` with
the descriptor defaulting a missing order weight to `{"value": 16}`. -/
def rate_weight_oz (o : Order) : ℚ :=
  match o.weight with
  | none => 16
  | some w => w.value.getD 0

/-- Structured outcome of rate selection. -/
inductive RateOutcome where
  | NoRatesFound
  | Selected (r : Rate)
  deriving DecidableEq, Repr

/-- Pool accumulation of the carrier loop: each element of `responses`
is `some rates` for a 200 response carrying a JSON list, and `none` for
a non-success response (logged and skipped); successive lists are
appended by `all_rates.extend(rates)`. -/
def collect_rates (responses : List (Option (List Rate))) : List Rate :=
  responses.foldl (fun acc r => acc ++ r.getD []) []

/-- Python `set_shipping_service` of `automator_new.py`, with the three
per-carrier HTTP responses supplied as data: returns the structured
outcome, the tag-add calls issued, and the updated order. -/
def set_shipping_service (o : Order) (responses : List (Option (List Rate))) :
    RateOutcome × List TagCall × Order :=
  let all_rates := collect_rates responses
  if all_rates = [] then (.NoRatesFound, [(o.orderId, EDGE_CASE_TAG)], o)
  else
    let sorted := sortRates all_rates
    let expedited := decide (EXPEDITED_TAG ∈ o.tagIds)
    let dom := is_domestic o
    let woz := rate_weight_oz o
    let c0 := if expedited then choose_by_keywords sorted EXPEDITED_KEYWORDS
              else none
    let c1 := if c0 = none ∧ dom = true ∧ 0 < woz then
                (let a := if woz < 16 then choose_by_keywords sorted LIGHT_KEYWORDS
                          else none
                 if a = none then choose_by_keywords sorted GROUND_KEYWORDS else a)
              else c0
    let c2 := if c1 = none ∧ dom = false then
                choose_by_keywords sorted INTL_KEYWORDS
              else c1
    let chosen := c2.getD (sorted.headD default)
    (.Selected chosen, [],
     { o with carrierCode := chosen.carrierCode, serviceCode := chosen.serviceCode })

/-! Batch driver (module-level code of `automator_new.py`, and
`filter_orders` of `main.py`). -/

/-- Exclusion test `set(o.get("tagIds", [])) & EXCLUDED_TAG_IDS` (also
`any(tag in EXCLUDED_TAG_IDS for tag in tag_ids)` in `main.py`). -/
def is_excluded (o : Order) : Bool :=
  o.tagIds.any (fun t => EXCLUDED_TAG_IDS.contains t)

/-- Eligible orders: the fetched list with excluded-tag orders removed
(`eligible_orders` in the automators, `filter_orders` in `main.py`). -/
def filter_orders (orders : List Order) : List Order :=
  orders.filter (fun o => !is_excluded o)

/-- SKU→batch-tag map `PRODUCT_TYPE_TO_BATCH_TAG`. -/
def PRODUCT_TYPE_TO_BATCH_TAG : List (String × Int) :=
  [("4IN-PLANT", 112293), ("6IN-PLANT", 112295), ("BUNDLE", 112296)]

/-- Python `get_primary_product_type`: upper-cased SKU of the first line
item whose SKU is a key of `PRODUCT_TYPE_TO_BATCH_TAG`. -/
def get_primary_product_type (o : Order) : Option String :=
  o.items.findSome? (fun it =>
    let s := itemSku it
    if (PRODUCT_TYPE_TO_BATCH_TAG.lookup s).isSome then some s else none)

/-- Observable event of the batch run. -/
inductive Event where
  | classified (orderId : Int) (edge : Bool)
  | tagAdd (orderId : Int) (tagId : Int)
  | weightAssigned (orderId : Int)
  | rated (orderId : Int) (oc : RateOutcome)
  deriving DecidableEq, Repr

/-- Order id an event refers to. -/
def event_order_id : Event → Int
  | .classified oid _ => oid
  | .tagAdd oid _ => oid
  | .weightAssigned oid => oid
  | .rated oid _ => oid

/-- Events of the classification pass over one eligible order: the
`is_edge_case` call itself plus the tag-adds it issues. -/
def classification_events (o : Order) : List Event :=
  Event.classified o.orderId (is_edge_case_run o).1 ::
    (is_edge_case_run o).2.1.map (fun tc => Event.tagAdd tc.1 tc.2)

/-- Events of the processing loop body for one order to process:
`assign_weight_and_dimensions`, `set_shipping_service` (with its tag
calls), then the PROCESSED tag-add. -/
def process_order_events (env : Order → List (Option (List Rate)))
    (o : Order) : List Event :=
  let o1 := assign_weight_and_dimensions o
  let r := set_shipping_service o1 (env o)
  Event.weightAssigned o.orderId ::
    r.2.1.map (fun tc => Event.tagAdd tc.1 tc.2) ++
    [Event.rated o.orderId r.1, Event.tagAdd o.orderId PROCESSED_TAG]

/-- Events of the batch-tagging phase: product types in order of first
appearance among the eligible orders (Python dict insertion order), each
group's orders tagged in eligible-list order. -/
def batch_tag_events (elig : List Order) : List Event :=
  let keys := elig.foldl (fun acc o =>
    match get_primary_product_type o with
    | some pt => if acc.contains pt then acc else acc ++ [pt]
    | none => acc) []
  keys.flatMap (fun pt =>
    (elig.filter (fun o => get_primary_product_type o == some pt)).map
      (fun o => Event.tagAdd o.orderId
        ((PRODUCT_TYPE_TO_BATCH_TAG.lookup pt).getD 0)))

/-- Whole batch run of `automator_new.py` after fetching: exclusion
filter, classification pass, processing loop over the non-edge
non-processed orders, then batch tagging over the eligible orders. -/
def batch_run (env : Order → List (Option (List Rate)))
    (orders : List Order) : List Event :=
  let elig := filter_orders orders
  let phase1 := elig.flatMap classification_events
  let to_process := elig.filter
    (fun o => !(is_edge_case_run o).1 && !has_processed_tag o)
  let phase2 := to_process.flatMap (process_order_events env)
  phase1 ++ phase2 ++ batch_tag_events elig

/-! Spec-side definitions, written from the claims' own words, for the
refinement-style claims that are compared against the code. -/

/-- Modelled from the spec claim C2's words: classification with reason
`already_tagged` triggers no tag-add call from the caller. -/
def specAlreadyTaggedNoCall : Prop :=
  ∀ o : Order, classify o = .EDGE_CASE .already_tagged →
    (is_edge_case_run o).2.1 = []

/-- Modelled from the spec claim C3's words: the estimated weight sums
`perUnitWeight(sku) * quantity` over the line items, with
`"total-discount"` items contributing nothing. -/
def specEstimatedWeight (items : List Item) : ℚ :=
  ((items.filter (fun it => it.sku ≠ some "total-discount")).map
    (fun it => skuWeightLookup (itemSku it) * (itemQty it : ℚ))).sum

/-- Modelled from the spec claim C7's words: weight and dimensions are
either both absent, or both present and non-zero. -/
def specWeightDimsInvariant (o : Order) : Prop :=
  (o.weight = none ∧ o.dimensions = none) ∨
  (∃ w d, o.weight = some w ∧ o.dimensions = some d ∧
    (∃ v, w.value = some v ∧ v ≠ 0) ∧
    d.length ≠ 0 ∧ d.width ≠ 0 ∧ d.height ≠ 0)

/-! Concrete inputs used by witnesses and counterexamples. -/

/-- Concrete base order used by the examples below. -/
def sampleOrder : Order :=
  { orderId := 1, orderNumber := "1001", items := [], tagIds := [],
    mergedOrSplit := false, customField2 := some "A1", weight := none,
    dimensions := none, carrierCode := none, serviceCode := none,
    shipToCountry := some "US", shipToPostalCode := some "92821",
    shipToState := some "CA", residential := false }

/-- PITB order with weight and dimensions present, but merged and with no
location — every later edge rule would match. -/
def pitbDataOrder : Order :=
  { sampleOrder with
    tagIds := [PITB_TAG], weight := some ⟨some 32⟩,
    dimensions := some ⟨8, 8, 8⟩, mergedOrSplit := true, customField2 := none }

/-- Order already carrying the EDGE_CASE tag. -/
def alreadyTaggedOrder : Order := { sampleOrder with tagIds := [EDGE_CASE_TAG] }

/-- Order that is merged and also has no location. -/
def mergedNoLocOrder : Order :=
  { sampleOrder with
    mergedOrSplit := true, customField2 := none }

/-- Line-item list containing only the `"total-discount"` sentinel. -/
def discountItems : List Item := [⟨some "total-discount", some 1⟩]

/-- The spec's packaging example: one line item `{sku:"4IN-PLANT", qty:3}`. -/
def fourInchItems : List Item := [⟨some "4IN-PLANT", some 3⟩]

/-- A single BUNDLE line item (large marker, item count 1). -/
def bundleItems : List Item := [⟨some "BUNDLE", some 1⟩]

/-- Order whose only line item is the discount sentinel. -/
def discountOrder : Order := { sampleOrder with items := discountItems }

/-- Order with the spec's packaging-example line items. -/
def fourInchOrder : Order := { sampleOrder with items := fourInchItems }

/-- The spec's rate example: a $12.50 quote (no text fields, so no
preference keyword can match). -/
def exRate1 : Rate := ⟨none, none, none, some (25 / 2)⟩

/-- The spec's rate example: the $8.00 quote. -/
def exRate2 : Rate := ⟨none, none, none, some 8⟩

/-- The spec's rate example: the $15.00 quote. -/
def exRate3 : Rate := ⟨none, none, none, some 15⟩

/-- Carrier responses delivering the spec's example pool
`[12.50, 8.00, 15.00]` in discovery order. -/
def exResponses : List (Option (List Rate)) :=
  [some [exRate1, exRate2, exRate3]]

/-- Carrier responses where every carrier fails or returns no quotes. -/
def failResponses : List (Option (List Rate)) := [none, some [], none]

/-- Order carrying the excluded Wayfair tag (151644). -/
def excludedOrder : Order := { sampleOrder with orderId := 2, tagIds := [151644] }

/-! Theorems settling the claims. -/

/-- C1: for every order carrying the PITB tag, classification checks only
whether the weight value is present and non-zero and the dimensions are
present: if either is missing the result is
`EDGE_CASE(pitb_missing_critical_shipping_data)`, otherwise it is
`ROUTINE` immediately, all subsequent edge-case rules being skipped
regardless of whether they would match (no hypothesis about any other
field is needed). -/
theorem C1_pitb_short_circuit (o : Order) (hp : is_pitb o = true) :
    (o.dimensions = none ∨ pitb_weight_value o = none ∨
        pitb_weight_value o = some 0 →
      classify o = .EDGE_CASE .pitb_missing_critical_shipping_data) ∧
    (o.dimensions ≠ none → pitb_weight_value o ≠ none →
      pitb_weight_value o ≠ some 0 → classify o = .ROUTINE) := by
  constructor
  · intro h
    simp [classify, hp, pitb_missing_critical, h]
  · intro h1 h2 h3
    simp [classify, hp, pitb_missing_critical, h1, h2, h3]

/-- Witness for C1: a PITB order with weight 32 oz and dimensions present
classifies `ROUTINE` although it is merged and has no location. -/
theorem C1_pitb_short_circuit_witness :
    is_merged pitbDataOrder = true ∧ has_no_location pitbDataOrder = true ∧
    classify pitbDataOrder = .ROUTINE :=
  ⟨by decide, by decide,
    (C1_pitb_short_circuit pitbDataOrder (by decide)).2 (by decide) (by decide)
      (by decide)⟩

/-- C2 counterexample: the claim says the caller issues no tag-add when
the classification reason is `already_tagged`, but on an order already
carrying the EDGE_CASE tag `is_edge_case` of `automator_new.py` calls
`mark_edge_case`, which issues the `assign_tag` call unconditionally. -/
theorem C2_already_tagged_counterexample :
    ¬ specAlreadyTaggedNoCall ∧
    classify alreadyTaggedOrder = .EDGE_CASE .already_tagged ∧
    (is_edge_case_run alreadyTaggedOrder).2.1 = [(1, EDGE_CASE_TAG)] := by
  refine ⟨fun h => ?_, by decide, by decide⟩
  exact absurd (h alreadyTaggedOrder (by decide)) (by decide)

/-- C2 amended: in `automator_new.py` every `EDGE_CASE` classification,
including reason `already_tagged`, makes the caller issue exactly one
EDGE_CASE tag-add call (re-adding relies on the Tag Store add being a
no-op); only the `mark_edge_case` of `automator_old1.py` skips the call
when the tag is already present. -/
theorem C2_amended_tagging :
    (∀ (o : Order) (r : Reason), classify o = .EDGE_CASE r →
      (is_edge_case_run o).2.1 = [(o.orderId, EDGE_CASE_TAG)]) ∧
    (∀ o : Order, has_edge_tag o = true → mark_edge_case_old1_calls o = []) := by
  constructor
  · intro o r h
    unfold classify at h
    unfold is_edge_case_run
    split_ifs at h ⊢ <;> simp_all [mark_edge_case_calls]
  · intro o h
    simp only [has_edge_tag, decide_eq_true_eq] at h
    simp [mark_edge_case_old1_calls, h]

/-- Witness for C2's amended claim at the already-tagged order. -/
theorem C2_amended_tagging_witness :
    (is_edge_case_run alreadyTaggedOrder).2.1 =
      [(alreadyTaggedOrder.orderId, EDGE_CASE_TAG)] ∧
    mark_edge_case_old1_calls alreadyTaggedOrder = [] :=
  ⟨C2_amended_tagging.1 alreadyTaggedOrder .already_tagged (by decide),
   C2_amended_tagging.2 alreadyTaggedOrder (by decide)⟩

/-- C8: rule evaluation is ordered and short-circuiting — an order with
no PITB tag, no EDGE_CASE tag and no PROCESSED tag that is merged and
also has no location classifies `EDGE_CASE(merged)`, not
`EDGE_CASE(no_location)`. -/
theorem C8_merged_preempts_no_location (o : Order)
    (hp : is_pitb o = false) (he : has_edge_tag o = false)
    (hpr : has_processed_tag o = false) (hm : is_merged o = true)
    (_hl : has_no_location o = true) :
    classify o = .EDGE_CASE .merged ∧ classify o ≠ .EDGE_CASE .no_location := by
  have h : classify o = .EDGE_CASE .merged := by
    simp [classify, hp, he, hpr, hm]
  exact ⟨h, by simp [h]⟩

/-- Witness for C8 at a concrete merged, location-less order. -/
theorem C8_merged_preempts_no_location_witness :
    classify mergedNoLocOrder = .EDGE_CASE .merged ∧
    classify mergedNoLocOrder ≠ .EDGE_CASE .no_location :=
  C8_merged_preempts_no_location mergedNoLocOrder (by decide) (by decide)
    (by decide) (by decide) (by decide)

/-- C9: the classifier run neither mutates the order's local state nor
depends on hidden state — the post-call order equals the input, a second
run returns exactly the same triple, and the pure classification of the
post-call state is unchanged. -/
theorem C9_classifier_idempotent (o : Order) :
    (is_edge_case_run o).2.2 = o ∧
    is_edge_case_run ((is_edge_case_run o).2.2) = is_edge_case_run o ∧
    classify ((is_edge_case_run o).2.2) = classify o := by
  have h : (is_edge_case_run o).2.2 = o := by
    unfold is_edge_case_run
    repeat' split
    all_goals rfl
  exact ⟨h, by rw [h], by rw [h]⟩

/-! Packaging-estimator lemmas and claims. -/

/-- Item loop of `assign_weight_and_dimensions`, related to the list
sums: the fold accumulates exactly the summed weight, summed quantity
and the large-item flag. -/
lemma awd_foldl_spec (items : List Item) : ∀ (w : ℚ) (n : Int) (b : Bool),
    items.foldl awdStep (w, n, b) =
      (w + total_weight items, n + total_items items,
        b || large_item_present items) := by
  induction items with
  | nil => intro w n b; simp [total_weight, total_items, large_item_present]
  | cons it its ih =>
    intro w n b
    rw [List.foldl_cons]
    simp only [awdStep]
    rw [ih]
    simp [total_weight, total_items, large_item_present, add_assoc, Bool.or_assoc]

/-- Item loop from the zero state. -/
lemma awd_fold_eq (items : List Item) :
    items.foldl awdStep (0, 0, false) =
      (total_weight items, total_items items, large_item_present items) := by
  simpa using awd_foldl_spec items 0 0 false

/-- Weight written by the estimator. -/
lemma awd_weight (o : Order) :
    (assign_weight_and_dimensions o).weight =
      some ⟨some (total_weight o.items)⟩ := by
  simp [assign_weight_and_dimensions, awd_fold_eq]

/-- Dimensions written by the estimator. -/
lemma awd_dims (o : Order) :
    (assign_weight_and_dimensions o).dimensions =
      some ⟨(chosen_box o.items).length, (chosen_box o.items).width,
        (chosen_box o.items).height⟩ := by
  simp [assign_weight_and_dimensions]

/-- Every per-unit weight in the table (and the default) is at least 16 oz. -/
lemma skuWeightLookup_ge (s : String) : 16 ≤ skuWeightLookup s := by
  unfold skuWeightLookup SKU_WEIGHT_MAP DEFAULT_WEIGHT_OZ
  simp only [List.lookup]
  repeat' split
  all_goals norm_num [Option.getD]

/-- The chosen box is always a catalog entry. -/
lemma chosen_box_mem (items : List Item) : chosen_box items ∈ BOX_SIZES := by
  unfold chosen_box
  dsimp only
  split
  · decide
  · split
    · exact List.mem_of_find?_eq_some (by assumption)
    · decide

/-- Summed weight is non-negative when quantities are at least 1. -/
lemma total_weight_nonneg (items : List Item)
    (hq : ∀ it ∈ items, 1 ≤ itemQty it) : 0 ≤ total_weight items := by
  induction items with
  | nil => simp [total_weight]
  | cons it its ih =>
    have h1 : (1 : ℚ) ≤ (itemQty it : ℚ) := by
      exact_mod_cast hq it (List.mem_cons_self it its)
    have h2 : (16 : ℚ) ≤ skuWeightLookup (itemSku it) := skuWeightLookup_ge _
    have h3 : 0 ≤ total_weight its :=
      ih (fun x hx => hq x (List.mem_cons_of_mem _ hx))
    have h4 : 0 ≤ skuWeightLookup (itemSku it) * (itemQty it : ℚ) := by nlinarith
    have h5 : total_weight (it :: its) =
        skuWeightLookup (itemSku it) * (itemQty it : ℚ) + total_weight its := by
      simp [total_weight]
    linarith

/-- Summed weight is positive when the item list is non-empty and
quantities are at least 1. -/
lemma total_weight_pos (items : List Item) (hne : items ≠ [])
    (hq : ∀ it ∈ items, 1 ≤ itemQty it) : 0 < total_weight items := by
  cases items with
  | nil => exact absurd rfl hne
  | cons it its =>
    have h1 : (1 : ℚ) ≤ (itemQty it : ℚ) := by
      exact_mod_cast hq it (List.mem_cons_self it its)
    have h2 : (16 : ℚ) ≤ skuWeightLookup (itemSku it) := skuWeightLookup_ge _
    have h3 : 0 ≤ total_weight its :=
      total_weight_nonneg its (fun x hx => hq x (List.mem_cons_of_mem _ hx))
    have h4 : (16 : ℚ) ≤ skuWeightLookup (itemSku it) * (itemQty it : ℚ) := by
      nlinarith
    have h5 : total_weight (it :: its) =
        skuWeightLookup (itemSku it) * (itemQty it : ℚ) + total_weight its := by
      simp [total_weight]
    linarith

/-- All catalog boxes have positive dimensions. -/
lemma box_dims_pos :
    ∀ b ∈ BOX_SIZES, 0 < b.length ∧ 0 < b.width ∧ 0 < b.height := by
  decide

/-- C3 counterexample: a `"total-discount"` line item is claimed to
contribute nothing to the estimated weight, but the weight loop of
`assign_weight_and_dimensions` has no such exclusion and charges it the
16 oz default: an order whose only item is the sentinel gets weight
16 oz, while the claim's formula gives 0. -/
theorem C3_discount_weight_counterexample :
    ¬ (∀ o : Order, (assign_weight_and_dimensions o).weight =
        some ⟨some (specEstimatedWeight o.items)⟩) ∧
    (assign_weight_and_dimensions discountOrder).weight = some ⟨some 16⟩ ∧
    specEstimatedWeight discountOrder.items = 0 := by
  have hw : total_weight discountOrder.items = 16 := by
    show total_weight discountItems = 16
    unfold total_weight discountItems
    simp only [List.map_cons, List.map_nil, List.sum_cons, List.sum_nil]
    rw [show skuWeightLookup (itemSku ⟨some "total-discount", some 1⟩) = 16
      from by decide]
    rw [show itemQty ⟨some "total-discount", some 1⟩ = 1 from by decide]
    norm_num
  have h0 : specEstimatedWeight discountOrder.items = 0 := by
    show specEstimatedWeight discountItems = 0
    simp [specEstimatedWeight, discountItems]
  refine ⟨fun h => ?_, by rw [awd_weight, hw], h0⟩
  have hc := h discountOrder
  rw [awd_weight, hw, h0] at hc
  injection hc with hc1
  injection hc1 with hc2
  injection hc2 with hc3
  exact absurd hc3 (by norm_num)

/-- C3 amended: the estimated weight is the sum of
`perUnitWeight(upper(sku)) * quantity` over ALL line items (unmapped
SKUs, including the `"total-discount"` sentinel, defaulting to 16 oz);
the sentinel is excluded only from `get_skus` and hence from the
SKU-based new-item logic, not from the weight. -/
theorem C3_amended_weight :
    (∀ o : Order, (assign_weight_and_dimensions o).weight =
      some ⟨some ((o.items.map (fun it =>
        skuWeightLookup (itemSku it) * (itemQty it : ℚ))).sum)⟩) ∧
    (∀ o : Order, "total-discount" ∉ get_skus o) := by
  constructor
  · intro o
    exact awd_weight o
  · intro o h
    simp only [get_skus, List.mem_filterMap] at h
    obtain ⟨it, -, hit⟩ := h
    cases hsk : it.sku with
    | none => rw [hsk] at hit; exact Option.noConfusion hit
    | some s =>
      rw [hsk] at hit
      simp only at hit
      split at hit
      · rename_i hc
        injection hit with hh
        exact hc.2 hh
      · exact Option.noConfusion hit

/-- Witness for C3's amended claim at the discount-only order. -/
theorem C3_amended_weight_witness :
    (assign_weight_and_dimensions discountOrder).weight =
      some ⟨some ((discountOrder.items.map (fun it =>
        skuWeightLookup (itemSku it) * (itemQty it : ℚ))).sum)⟩ ∧
    "total-discount" ∉ get_skus discountOrder :=
  ⟨C3_amended_weight.1 discountOrder, C3_amended_weight.2 discountOrder⟩

/-- C5: a large-marker SKU (prefix "8IN" or exact "BUNDLE") forces the
second-largest catalog box regardless of item count; otherwise the box
is the first catalog entry (ascending) whose `max_items` is at least the
summed quantity, and the largest entry when none fits; the spec's
example `[{sku:"4IN-PLANT", qty:3}]` yields 48 oz and the `max_items:4`
box. -/
theorem C5_box_selection (items : List Item) :
    (large_item_present items = true →
      chosen_box items = ⟨16, 12, 10, 8⟩ ∧
      BOX_SIZES.getD (BOX_SIZES.length - 2) default = ⟨16, 12, 10, 8⟩) ∧
    (large_item_present items = false →
      chosen_box items =
        (if total_items items ≤ 1 then ⟨8, 8, 8, 1⟩
         else if total_items items ≤ 2 then ⟨10, 8, 6, 2⟩
         else if total_items items ≤ 4 then ⟨12, 10, 8, 4⟩
         else if total_items items ≤ 8 then ⟨16, 12, 10, 8⟩
         else ⟨20, 14, 12, 16⟩)) ∧
    total_weight fourInchItems = 48 ∧
    chosen_box fourInchItems = ⟨12, 10, 8, 4⟩ := by
  have hw48 : total_weight fourInchItems = 48 := by
    unfold total_weight fourInchItems
    simp only [List.map_cons, List.map_nil, List.sum_cons, List.sum_nil]
    rw [show skuWeightLookup (itemSku ⟨some "4IN-PLANT", some 3⟩) = 16
      from by decide]
    rw [show itemQty ⟨some "4IN-PLANT", some 3⟩ = 3 from by decide]
    norm_num
  refine ⟨fun hl => ⟨?_, by decide⟩, fun hl => ?_, hw48, by decide⟩
  · unfold chosen_box
    rw [awd_fold_eq]
    simp [hl]
    decide
  · unfold chosen_box
    rw [awd_fold_eq]
    simp only [hl, Bool.false_eq_true, if_false]
    simp only [BOX_SIZES, List.find?]
    split_ifs with h1 h2 h3 h4
    · simp [h1]
    · simp [h1, h2]
    · simp [h1, h2, h3]
    · simp [h1, h2, h3, h4]
    · by_cases h5 : total_items items ≤ 16 <;> simp [h1, h2, h3, h4, h5]

/-- Witness for C5: a single BUNDLE item (count 1, which alone would fit
the smallest box) still gets the second-largest box. -/
theorem C5_box_selection_witness :
    chosen_box bundleItems = ⟨16, 12, 10, 8⟩ ∧ total_items bundleItems ≤ 1 :=
  ⟨((C5_box_selection bundleItems).1 (by decide)).1, by decide⟩

/-- C7 counterexample: the claim says weight and dimensions are both
absent or both present and non-zero after the estimator runs, but on an
order with no line items the estimator writes weight value 0 together
with present (8x8x8) dimensions. -/
theorem C7_weight_dims_counterexample :
    ¬ (∀ o : Order, specWeightDimsInvariant (assign_weight_and_dimensions o)) ∧
    (assign_weight_and_dimensions sampleOrder).weight = some ⟨some 0⟩ ∧
    (assign_weight_and_dimensions sampleOrder).dimensions = some ⟨8, 8, 8⟩ := by
  refine ⟨fun h => ?_, by decide, by decide⟩
  rcases h sampleOrder with ⟨hw, -⟩ | ⟨w, d, hw, hd, ⟨v, hv, hv0⟩, -⟩
  · exact absurd hw (by decide)
  · rw [show (assign_weight_and_dimensions sampleOrder).weight =
      some ⟨some 0⟩ from by decide] at hw
    injection hw with hw'
    rw [← hw'] at hv
    injection hv with hv'
    exact hv0 hv'.symm

/-- C7 amended: after the estimator runs, weight and dimensions are both
always present and the dimensions are positive; the weight value is
non-zero (indeed positive) whenever the order has at least one line item
with the data-model constraint quantity ≥ 1; for an empty line-item list
the weight is present but zero. -/
theorem C7_amended_weight_dims (o : Order) :
    (∃ w d, (assign_weight_and_dimensions o).weight = some w ∧
      (assign_weight_and_dimensions o).dimensions = some d ∧
      0 < d.length ∧ 0 < d.width ∧ 0 < d.height) ∧
    (o.items ≠ [] → (∀ it ∈ o.items, 1 ≤ itemQty it) →
      ∃ v, (assign_weight_and_dimensions o).weight = some ⟨some v⟩ ∧ 0 < v) := by
  obtain ⟨hb1, hb2, hb3⟩ := box_dims_pos _ (chosen_box_mem o.items)
  constructor
  · exact ⟨⟨some (total_weight o.items)⟩, _, awd_weight o, awd_dims o,
      hb1, hb2, hb3⟩
  · intro hne hq
    exact ⟨total_weight o.items, awd_weight o, total_weight_pos o.items hne hq⟩

/-- Witness for C7's amended claim at the 4IN-PLANT example order. -/
theorem C7_amended_weight_dims_witness :
    ∃ v, (assign_weight_and_dimensions fourInchOrder).weight =
      some ⟨some v⟩ ∧ 0 < v :=
  (C7_amended_weight_dims fourInchOrder).2 (by decide) (by decide)

/-! Rate-selector lemmas and claims. -/

/-- The carrier-loop accumulation, as a flat map over the responses. -/
lemma collect_rates_flatMap (rs : List (Option (List Rate))) :
    collect_rates rs = rs.flatMap (fun r => r.getD []) := by
  have h : ∀ (l : List (Option (List Rate))) (acc : List Rate),
      l.foldl (fun a r => a ++ r.getD []) acc =
        acc ++ l.flatMap (fun r => r.getD []) := by
    intro l
    induction l with
    | nil => intro acc; simp
    | cons r rest ih => intro acc; simp [ih, List.append_assoc]
  simpa [collect_rates] using h rs []

/-- C4: when the combined pool is empty after trying all carriers, rate
selection returns the structured `NoRatesFound` outcome (no exception is
possible — the function is total), issues exactly the EDGE_CASE tag-add
call, and leaves the order unchanged; moreover a failed (non-success)
response from any single carrier contributes nothing to the pool — the
pool is as if that carrier were skipped, the other carriers' quotes
surviving. -/
theorem C4_no_rates_structured_outcome (o : Order)
    (rs : List (Option (List Rate))) :
    (collect_rates rs = [] →
      set_shipping_service o rs =
        (.NoRatesFound, [(o.orderId, EDGE_CASE_TAG)], o)) ∧
    (∀ pre post : List (Option (List Rate)),
      collect_rates (pre ++ none :: post) = collect_rates (pre ++ post)) := by
  constructor
  · intro h
    simp [set_shipping_service, h]
  · intro pre post
    simp [collect_rates_flatMap]

/-- Witness for C4: with all three carriers failing or empty, the
outcome is `NoRatesFound` with the EDGE_CASE tag-add. -/
theorem C4_no_rates_structured_outcome_witness :
    set_shipping_service sampleOrder failResponses =
      (.NoRatesFound, [(sampleOrder.orderId, EDGE_CASE_TAG)], sampleOrder) :=
  (C4_no_rates_structured_outcome sampleOrder failResponses).1 (by decide)

/-- C6: the pool is sorted ascending by cost by a stable sort (the
sorted pool is sorted, is a permutation of the pool, and preserves the
discovery order of cost ties), and whenever no preference rule matches
the selected rate is the head of the sorted pool, which has minimal cost
among all quotes. -/
theorem C6_stable_sort_cheapest_fallback (o : Order)
    (rs : List (Option (List Rate))) :
    List.Sorted rateLE (sortRates (collect_rates rs)) ∧
    List.Perm (sortRates (collect_rates rs)) (collect_rates rs) ∧
    (∀ a b : Rate, costKey a = costKey b →
      List.Sublist [a, b] (collect_rates rs) →
      List.Sublist [a, b] (sortRates (collect_rates rs))) ∧
    (collect_rates rs ≠ [] →
      choose_by_keywords (sortRates (collect_rates rs)) EXPEDITED_KEYWORDS = none →
      choose_by_keywords (sortRates (collect_rates rs)) LIGHT_KEYWORDS = none →
      choose_by_keywords (sortRates (collect_rates rs)) GROUND_KEYWORDS = none →
      choose_by_keywords (sortRates (collect_rates rs)) INTL_KEYWORDS = none →
      (set_shipping_service o rs).1 =
        .Selected ((sortRates (collect_rates rs)).headD default) ∧
      ∀ r ∈ collect_rates rs,
        costKey ((sortRates (collect_rates rs)).headD default) ≤ costKey r) := by
  refine ⟨List.sorted_insertionSort rateLE _, List.perm_insertionSort rateLE _,
    fun a b hk hsub => List.pair_sublist_insertionSort (le_of_eq hk) hsub,
    fun hne h1 h2 h3 h4 => ⟨?_, ?_⟩⟩
  · simp [set_shipping_service, hne, h1, h2, h3, h4]
  · intro r hr
    have hmem : r ∈ sortRates (collect_rates rs) :=
      ((List.perm_insertionSort rateLE _).mem_iff).mpr hr
    have hsorted : List.Sorted rateLE (sortRates (collect_rates rs)) :=
      List.sorted_insertionSort rateLE _
    revert hmem hsorted
    cases sortRates (collect_rates rs) with
    | nil => intro hmem _; simp at hmem
    | cons x xs =>
      intro hmem hsorted
      simp only [List.headD_cons]
      rcases List.mem_cons.mp hmem with h | h
      · subst h; exact le_refl _
      · exact List.rel_of_sorted_cons hsorted r h

/-- Witness for C6 at the spec's example pool: costs
`[12.50, 8.00, 15.00]` with no keyword matches select the $8.00 quote. -/
theorem C6_stable_sort_cheapest_fallback_witness :
    (set_shipping_service sampleOrder exResponses).1 = .Selected exRate2 ∧
    exRate2.shipmentCost = some 8 := by
  have hcol : collect_rates exResponses = [exRate1, exRate2, exRate3] := rfl
  have h23 : rateLE exRate2 exRate3 := by
    show ((8 : ℚ) : WithTop ℚ) ≤ ((15 : ℚ) : WithTop ℚ)
    rw [WithTop.coe_le_coe]
    norm_num
  have h12 : ¬ rateLE exRate1 exRate2 := by
    show ¬ ((((25 : ℚ) / 2 : ℚ) : WithTop ℚ) ≤ ((8 : ℚ) : WithTop ℚ))
    rw [WithTop.coe_le_coe]
    norm_num
  have h13 : rateLE exRate1 exRate3 := by
    show ((((25 : ℚ) / 2 : ℚ) : WithTop ℚ) ≤ ((15 : ℚ) : WithTop ℚ))
    rw [WithTop.coe_le_coe]
    norm_num
  have hs : sortRates (collect_rates exResponses) = [exRate2, exRate1, exRate3] := by
    rw [hcol]
    simp [sortRates, List.insertionSort, List.orderedInsert, h23, h12, h13]
  have hmain := (C6_stable_sort_cheapest_fallback sampleOrder exResponses).2.2.2
  rw [hs, hcol] at hmain
  have hres := hmain (by simp) (by decide) (by decide) (by decide) (by decide)
  refine ⟨?_, rfl⟩
  simpa using hres.1

/-! Batch-driver lemmas and the exclusion claim. -/

/-- Every tag-add issued by the classifier run targets the order itself. -/
lemma is_edge_case_run_calls (o : Order) :
    ∀ tc ∈ (is_edge_case_run o).2.1, tc.1 = o.orderId := by
  intro tc htc
  unfold is_edge_case_run mark_edge_case_calls at htc
  repeat' split at htc
  all_goals simp_all

/-- Every tag-add issued by rate selection targets the order itself. -/
lemma set_shipping_service_calls (o : Order) (rs : List (Option (List Rate))) :
    ∀ tc ∈ (set_shipping_service o rs).2.1, tc.1 = o.orderId := by
  intro tc htc
  by_cases h : collect_rates rs = []
  · simp [set_shipping_service, h] at htc
    simp [htc]
  · simp [set_shipping_service, h] at htc

/-- Every event of the classification pass targets that order. -/
lemma classification_events_ids (o : Order) :
    ∀ e ∈ classification_events o, event_order_id e = o.orderId := by
  intro e he
  simp only [classification_events, List.mem_cons, List.mem_map] at he
  rcases he with rfl | ⟨tc, htc, rfl⟩
  · rfl
  · exact is_edge_case_run_calls o tc htc

/-- Every event of the processing loop body targets that order. -/
lemma process_order_events_ids (env : Order → List (Option (List Rate)))
    (o : Order) :
    ∀ e ∈ process_order_events env o, event_order_id e = o.orderId := by
  intro e he
  simp only [process_order_events, List.mem_cons, List.mem_append,
    List.mem_map, List.not_mem_nil, or_false] at he
  rcases he with (rfl | ⟨tc, htc, rfl⟩) | (rfl | rfl)
  · rfl
  · have h1 := set_shipping_service_calls (assign_weight_and_dimensions o)
      (env o) tc htc
    have h2 : (assign_weight_and_dimensions o).orderId = o.orderId := rfl
    simpa [event_order_id, h2] using h1
  · rfl
  · rfl

/-- Every event of the batch-tagging phase targets an eligible order. -/
lemma batch_tag_events_ids (elig : List Order) :
    ∀ e ∈ batch_tag_events elig, ∃ o2 ∈ elig, event_order_id e = o2.orderId := by
  intro e he
  simp only [batch_tag_events, List.mem_flatMap, List.mem_map,
    List.mem_filter] at he
  obtain ⟨pt, -, o2, ⟨ho2, -⟩, rfl⟩ := he
  exact ⟨o2, ho2, rfl⟩

/-- C10: an order carrying an excluded tag (Wayfair 151644 or Public
Goods 147485) is dropped before any processing: it is not in the
eligible list, no eligible order carries an excluded tag, and every
event of the whole batch run — classification, tag-adds,
weight/dimension assignment, rate selection, processed and batch tags —
targets the orderId of some eligible (hence non-excluded) order. -/
theorem C10_excluded_orders_untouched
    (env : Order → List (Option (List Rate))) (orders : List Order)
    (o : Order) (_ho : o ∈ orders) (hex : is_excluded o = true) :
    o ∉ filter_orders orders ∧
    (∀ o2 ∈ filter_orders orders, is_excluded o2 = false) ∧
    (∀ e ∈ batch_run env orders, ∃ o2 ∈ filter_orders orders,
      event_order_id e = o2.orderId) := by
  refine ⟨?_, ?_, ?_⟩
  · simp [filter_orders, List.mem_filter, hex]
  · intro o2 h2
    simp only [filter_orders, List.mem_filter] at h2
    simpa using h2.2
  · intro e he
    simp only [batch_run, List.mem_append] at he
    rcases he with (he | he) | he
    · obtain ⟨o2, ho2, hee⟩ := List.mem_flatMap.mp he
      exact ⟨o2, ho2, classification_events_ids o2 e hee⟩
    · obtain ⟨o2, ho2f, hee⟩ := List.mem_flatMap.mp he
      exact ⟨o2, (List.mem_filter.mp ho2f).1,
        process_order_events_ids env o2 e hee⟩
    · exact batch_tag_events_ids _ e he

/-- Witness for C10: a two-order batch where the second order carries
the Wayfair tag. -/
theorem C10_excluded_orders_untouched_witness :
    excludedOrder ∉ filter_orders [sampleOrder, excludedOrder] ∧
    (∀ o2 ∈ filter_orders [sampleOrder, excludedOrder],
      is_excluded o2 = false) ∧
    (∀ e ∈ batch_run (fun _ => [none, none, none])
        [sampleOrder, excludedOrder],
      ∃ o2 ∈ filter_orders [sampleOrder, excludedOrder],
        event_order_id e = o2.orderId) :=
  C10_excluded_orders_untouched (fun _ => [none, none, none])
    [sampleOrder, excludedOrder] excludedOrder
    (List.mem_cons_of_mem _ (List.mem_cons_self _ _)) (by decide)

end ShipStation
